import Mathlib

/-!
Verification of the font scanner/installer (`src/font.py`).

Strings are shallowly embedded as lists of Unicode code points (`List Nat`),
so that Python's ASCII case mapping, `str.strip`, and the character classes of
the regular expressions in `normalize_font_name` can be modelled faithfully.
Filesystem and network effects are made explicit: directories become
association lists from file names to contents, and each HTTP interaction
becomes an input describing its outcome.
-/

namespace FontScanner

/-- Encode a Lean string literal as the list of its code points. -/
def ofString (s : String) : List Nat := s.data.map Char.toNat

/-- Python `str.lower` on one code point. Faithful on ASCII (`A`-`Z` ↦
`a`-`z`) and on every code point whose Unicode lowercase is itself (such as
U+00DF `ß`); other code points are left unchanged, and no theorem below
relies on the mapping outside that fragment. -/
def pyLower (n : Nat) : Nat := if 65 ≤ n ∧ n ≤ 90 then n + 32 else n

/-- Python `str.upper` of one code point, as a string: the Unicode uppercase
mapping may expand one code point to several (U+00DF `ß` uppercases to
`"SS"`). Faithful on ASCII (`a`-`z` ↦ `A`-`Z`, all other ASCII fixed) and on
U+00DF; other code points are left unchanged, and the case-insensitivity
theorem below is restricted to ASCII inputs, where this model is exact. -/
def pyUpperChar (n : Nat) : List Nat :=
  if 97 ≤ n ∧ n ≤ 122 then [n - 32]
  else if n = 223 then [83, 83]
  else [n]

/-- Python `str.lower` on a string. -/
def pyLowerStr (s : List Nat) : List Nat := s.map pyLower

/-- Python `str.upper` on a string: concatenate the per-code-point
uppercase strings. -/
def pyUpperStr : List Nat → List Nat
  | [] => []
  | n :: rest => pyUpperChar n ++ pyUpperStr rest

/-- Membership in the ASCII regex word class `\w` (`[a-zA-Z0-9_]`), used for
`\b`. Python's `\w` is Unicode-aware (non-ASCII letters are word characters);
this model is exact on ASCII strings, and every theorem that depends on the
values `normalize_font_name` computes is evaluated on ASCII inputs only. -/
def isWordChar (n : Nat) : Bool :=
  (48 ≤ n && n ≤ 57) || (65 ≤ n && n ≤ 90) || (97 ≤ n && n ≤ 122) || n == 95

/-- ASCII whitespace as stripped by Python `str.strip()`. -/
def isPySpace (n : Nat) : Bool :=
  n == 32 || n == 9 || n == 10 || n == 13 || n == 11 || n == 12

/-- The character class `[a-z0-9]`: what survives `re.sub(r'[^a-z0-9]', '', s)`. -/
def isLowerAlnum (n : Nat) : Bool :=
  (97 ≤ n && n ≤ 122) || (48 ≤ n && n ≤ 57)

/-- Python `str.strip()`: drop whitespace from both ends. -/
def stripWS (s : List Nat) : List Nat :=
  ((s.dropWhile isPySpace).reverse.dropWhile isPySpace).reverse

/-- The alternation `(ps|mt|std|pro|light|bold|regular|medium|italic)` of
`normalize_font_name`, in source order (Python tries alternatives in order). -/
def nameTokens : List (List Nat) :=
  [ofString "ps", ofString "mt", ofString "std", ofString "pro", ofString "light",
   ofString "bold", ofString "regular", ofString "medium", ofString "italic"]

/-- At the current position (suffix `s`), find the first alternation token that
matches and is followed by a word boundary (`\b`): the token is a prefix of `s`
and the code point right after it (if any) is not a word character. -/
def findTok (s : List Nat) : Option (List Nat) :=
  nameTokens.find? (fun t => List.isPrefixOf t s && !(isWordChar (s.getD t.length 0)))

/-- One left-to-right pass of
`re.sub(r'\b(ps|mt|std|pro|light|bold|regular|medium|italic)\b', '', s)`.
`prevWord` says whether the code point before the current position is a word
character (so a `\b` holds here iff `prevWord = false`, every token starting
with a letter). After a removed token the previous character is the token's
final letter, hence `prevWord := true`. `fuel ≥ s.length` suffices since every
step consumes at least one code point. -/
def removeTokens : Nat → Bool → List Nat → List Nat
  | 0, _, s => s
  | _ + 1, _, [] => []
  | fuel + 1, prevWord, c :: rest =>
    if prevWord then c :: removeTokens fuel (isWordChar c) rest
    else
      match findTok (c :: rest) with
      | some t => removeTokens fuel true (List.drop t.length (c :: rest))
      | none => c :: removeTokens fuel (isWordChar c) rest

/-- `normalize_font_name` from `src/font.py`: lowercase, delete the whole-word
tokens, delete everything outside `[a-z0-9]`, then `strip()`. -/
def normalize_font_name (s : List Nat) : List Nat :=
  stripWS (List.filter isLowerAlnum
    (removeTokens (pyLowerStr s).length false (pyLowerStr s)))

/-- Python `dict` lookup `m.get(k)` over an association-list model. -/
def alookup {α β : Type} [DecidableEq α] (k : α) : List (α × β) → Option β
  | [] => none
  | (k2, v) :: rest => if k = k2 then some v else alookup k rest

/-- Python `dict` assignment `m[k] = v`: replace an existing binding for `k`,
otherwise append a new one. -/
def dinsert {α β : Type} [DecidableEq α] (k : α) (v : β) : List (α × β) → List (α × β)
  | [] => [(k, v)]
  | (k2, v2) :: rest => if k = k2 then (k, v) :: rest else (k2, v2) :: dinsert k v rest

/-- The `normalized_map` construction in `scan_all` (`src/font.py:425-429`):
for each installed font, bind `normalize_font_name(font) ↦ font` when the
normalized name is nonempty, by plain dict assignment. -/
def buildNormalizedMap (fonts : List (List Nat)) : List (List Nat × List Nat) :=
  fonts.foldl
    (fun m font =>
      let normalized := normalize_font_name font
      if normalized ≠ [] then dinsert normalized font m else m) []

/-- Result quadruple of `is_font_installed`: found flag, match-type string,
matched raw name, style-available flag. -/
structure MatchResult where
  found : Bool
  matchType : String
  matchedName : List Nat
  styleSatisfied : Bool
deriving DecidableEq, Repr

/-- The name-matching cascade of `is_font_installed` (`src/font.py:256-273`):
exact membership in `system_fonts`, else `lowercase_map[font_name.lower()]`,
else `normalized_map[normalize_font_name(font_name)]`. -/
def findFontMatch (fontName : List Nat) (systemFonts : List (List Nat))
    (lowercaseMap normalizedMap : List (List Nat × List Nat)) :
    Bool × String × List Nat :=
  if fontName ∈ systemFonts then (true, "exact match", fontName)
  else
    match alookup (pyLowerStr fontName) lowercaseMap with
    | some m => (true, "case-insensitive match", m)
    | none =>
      match alookup (normalize_font_name fontName) normalizedMap with
      | some m => (true, "normalized match", m)
      | none => (false, "", [])

/-- `is_font_installed` from `src/font.py`: run the matching cascade, then,
when the font was found and a style map was supplied, report whether the
requested style (or `"Regular"`) is among the matched font's styles; in every
other case the style flag is `False`. -/
def is_font_installed (fontName style : List Nat) (systemFonts : List (List Nat))
    (lowercaseMap normalizedMap : List (List Nat × List Nat))
    (installedStyles : Option (List (List Nat × List (List Nat)))) : MatchResult :=
  let r := findFontMatch fontName systemFonts lowercaseMap normalizedMap
  match installedStyles with
  | some styleMap =>
    if r.1 then
      let fontStyles := (alookup r.2.2 styleMap).getD []
      ⟨r.1, r.2.1, r.2.2,
        decide (style ∈ fontStyles ∨ ofString "Regular" ∈ fontStyles)⟩
    else ⟨r.1, r.2.1, r.2.2, false⟩
  | none => ⟨r.1, r.2.1, r.2.2, false⟩

/-- The pairing loop of `parse_fonts_from_setting` (`src/font.py:135-138`).
The two `re.findall` extractions are supplied as the already-captured
occurrence lists `matches` (families) and `styleMatches` (styles); the loop
pairs them positionally, defaulting missing styles to `"Regular"`, and strips
both components. -/
def parse_fonts_from_setting :
    List (List Nat) → List (List Nat) → List (List Nat × List Nat)
  | [], _ => []
  | f :: fs, [] => (stripWS f, stripWS (ofString "Regular")) :: parse_fonts_from_setting fs []
  | f :: fs, s :: ss => (stripWS f, stripWS s) :: parse_fonts_from_setting fs ss

/-- Outcome of one remote request for the Google Fonts index
(`requests.get` in `get_google_fonts_index`): a parsed `items` list, an HTTP
403 (authentication) error, or any other error. -/
inductive FetchResult
  | ok (items : List (String × List String))
  | authError
  | otherError
deriving DecidableEq, Repr

/-- The dict comprehension `{f["family"]: f for f in fonts}`: later duplicate
families overwrite earlier ones. Values are the advertised variant lists. -/
def buildGoogleIndex (items : List (String × List String)) :
    List (String × List String) :=
  items.foldl (fun m it => dinsert it.1 it.2 m) []

/-- `get_google_fonts_index` from `src/font.py`: the first list entry models
the outcome of each successive HTTP attempt, the second the caller's reply to
each 403 prompt (`some key` = a replacement key was typed, `none` = the prompt
was declined). On 403 with a replacement key the function calls itself again;
on a declined prompt, any other error, or no response it returns the empty
index. -/
def get_google_fonts_index :
    List FetchResult → List (Option String) → List (String × List String)
  | [], _ => []
  | .ok items :: _, _ => buildGoogleIndex items
  | .otherError :: _, _ => []
  | .authError :: rs, .some _ :: ks => get_google_fonts_index rs ks
  | .authError :: _, .none :: _ => []
  | .authError :: _, [] => []

/-- One scrape provider as consulted by the chain: its source label and the
download URL its search yields for the family (`none` when the provider finds
nothing or errors, which the source treats identically). -/
def runProviderChain :
    List (String × Option String) → Option (String × String) × List String
  | [] => (none, [])
  | (label, result) :: rest =>
    match result with
    | some url => (some (url, label), [label])
    | none =>
      let r := runProviderChain rest
      (r.1, label :: r.2)

/-- `search_alternative_font_providers` from `src/font.py`: try 1001Fonts,
then DaFont, then FreeFonts.io, returning the first hit as
`(url, source label)` alongside the list of providers actually consulted. -/
def search_alternative_font_providers (r1001 rDafont rFreefont : Option String) :
    Option (String × String) × List String :=
  runProviderChain
    [("1001Fonts", r1001), ("DaFont", rDafont), ("FreeFonts.io", rFreefont)]

/-- A downloaded payload: either a well-formed zip archive (listing the font
files it contains) or a raw byte string that `zipfile` rejects. -/
inductive Payload
  | archive (fonts : List String)
  | raw (bytes : List Nat)
deriving DecidableEq, Repr

/-- Result of one download function: the returned success flag and the font
file names placed into the staging fonts directory. -/
structure DownloadOutcome where
  success : Bool
  staged : List String
deriving DecidableEq, Repr

/-- The `OTTO` OpenType signature bytes. -/
def ottoSig : List Nat := [0x4F, 0x54, 0x54, 0x4F]

/-- The `00 01 00 00` TrueType signature bytes. -/
def ttfSig : List Nat := [0x00, 0x01, 0x00, 0x00]

/-- The payload handling of `download_google_font` (`src/font.py:893-930`):
a valid zip is extracted and the function returns `True`; otherwise the first
bytes pick the extension (`OTTO` ⇒ `.otf`, `00 01 00 00` ⇒ `.ttf`, default
`.ttf`), the payload is saved under `family + ext`, and the function still
returns `True`. -/
def download_google_font (family : String) (payload : Payload) : DownloadOutcome :=
  match payload with
  | .archive fonts => ⟨true, fonts⟩
  | .raw bytes =>
    let ext : String :=
      if List.isPrefixOf ottoSig bytes then ".otf"
      else if List.isPrefixOf ttfSig bytes then ".ttf"
      else ".ttf"
    ⟨true, [family ++ ext]⟩

/-- The payload handling of `download_font_from_alternative_source`
(`src/font.py:1151-1194`): a valid zip succeeds iff it yields font files; a
raw payload is saved (and succeeds) only when its first bytes match `OTTO` or
`00 01 00 00`, otherwise nothing is staged and `False` is returned. -/
def download_font_from_alternative_source (fontName : String) (payload : Payload) :
    DownloadOutcome :=
  match payload with
  | .archive fonts => if fonts ≠ [] then ⟨true, fonts⟩ else ⟨false, fonts⟩
  | .raw bytes =>
    if List.isPrefixOf ottoSig bytes then ⟨true, [fontName ++ ".otf"]⟩
    else if List.isPrefixOf ttfSig bytes then ⟨true, [fontName ++ ".ttf"]⟩
    else ⟨false, []⟩

/-- One staged font awaiting install: file name, file contents, and the
`is_variable_font` verdict. -/
structure StagedFont where
  name : String
  content : List Nat
  isVariable : Bool
deriving DecidableEq, Repr

/-- Installer state: the destination font directory (name ↦ contents) and the
four counters of `install_fonts_from_temp`. -/
structure InstallState where
  dest : List (String × List Nat)
  installed : Nat
  replaced : Nat
  skipped : Nat
  variableCount : Nat
deriving DecidableEq, Repr

/-- The loop body of `install_fonts_from_temp` (`src/font.py:627-652`) for one
staged font: skip (no write) when the destination exists and neither
`replace_existing` nor variable; otherwise copy, bumping the replaced or
installed counter, and the variable counter when applicable. -/
def installStep (replaceExisting : Bool) (st : InstallState) (font : StagedFont) :
    InstallState :=
  match alookup font.name st.dest with
  | some _ =>
    if !(replaceExisting || font.isVariable) then
      { st with skipped := st.skipped + 1 }
    else
      { st with dest := dinsert font.name font.content st.dest,
                replaced := st.replaced + 1,
                variableCount := st.variableCount + if font.isVariable then 1 else 0 }
  | none =>
      { st with dest := dinsert font.name font.content st.dest,
                installed := st.installed + 1,
                variableCount := st.variableCount + if font.isVariable then 1 else 0 }

/-- `install_fonts_from_temp`: fold the loop body over the staged fonts,
starting from the existing destination directory and zeroed counters. -/
def install_fonts_from_temp (replaceExisting : Bool) (fonts : List StagedFont)
    (dest : List (String × List Nat)) : InstallState :=
  fonts.foldl (installStep replaceExisting) ⟨dest, 0, 0, 0, 0⟩

theorem pyLower_sub32 (n : Nat) (h : 97 ≤ n ∧ n ≤ 122) :
    pyLower (n - 32) = pyLower n := by
  unfold pyLower
  split_ifs <;> omega

theorem pyUpperChar_map_pyLower (n : Nat) (h : n ≤ 127) :
    (pyUpperChar n).map pyLower = [pyLower n] := by
  unfold pyUpperChar
  split_ifs with h1 h2
  · simp [pyLower_sub32 n h1]
  · omega
  · simp

theorem pyLowerStr_pyUpperStr_ascii (x : List Nat) (h : ∀ n ∈ x, n ≤ 127) :
    pyLowerStr (pyUpperStr x) = pyLowerStr x := by
  induction x with
  | nil => rfl
  | cons n rest ih =>
    have hn : n ≤ 127 := h n (List.mem_cons_self n rest)
    have hrest : pyLowerStr (pyUpperStr rest) = pyLowerStr rest :=
      ih (fun m hm => h m (List.mem_cons_of_mem n hm))
    unfold pyLowerStr at hrest ⊢
    show List.map pyLower (pyUpperChar n ++ pyUpperStr rest) = _
    rw [List.map_append, pyUpperChar_map_pyLower n hn, List.map_cons, hrest]
    rfl

theorem alookup_dinsert_self {α β : Type} [DecidableEq α] (k : α) (v : β)
    (m : List (α × β)) : alookup k (dinsert k v m) = some v := by
  induction m with
  | nil => simp [dinsert, alookup]
  | cons p rest ih =>
    obtain ⟨k2, v2⟩ := p
    by_cases h : k = k2
    · simp [dinsert, alookup, h]
    · simp [dinsert, alookup, h, ih]

/-- Claim C10: when `is_font_installed` is invoked without a style map
(`installed_styles is None`), the returned style-satisfied flag is false, no
matter how (or whether) the family was matched. -/
theorem C10_no_style_map_false (fontName style : List Nat)
    (systemFonts : List (List Nat)) (lowercaseMap normalizedMap : List (List Nat × List Nat)) :
    (is_font_installed fontName style systemFonts lowercaseMap normalizedMap none).styleSatisfied
      = false := rfl

/-- Claim C5: the provider chain queries 1001Fonts, then DaFont, then
FreeFonts.io, returns the first reference found with that provider's source
label, and consults no later provider once an earlier one returns a
reference (the consulted-provider trace stops at the first success). -/
theorem C5_provider_chain_order (r1001 rDafont rFreefont : Option String) :
    (∀ u, r1001 = some u →
      search_alternative_font_providers r1001 rDafont rFreefont
        = (some (u, "1001Fonts"), ["1001Fonts"])) ∧
    (∀ u, r1001 = none → rDafont = some u →
      search_alternative_font_providers r1001 rDafont rFreefont
        = (some (u, "DaFont"), ["1001Fonts", "DaFont"])) ∧
    (∀ u, r1001 = none → rDafont = none → rFreefont = some u →
      search_alternative_font_providers r1001 rDafont rFreefont
        = (some (u, "FreeFonts.io"), ["1001Fonts", "DaFont", "FreeFonts.io"])) ∧
    (r1001 = none → rDafont = none → rFreefont = none →
      search_alternative_font_providers r1001 rDafont rFreefont
        = (none, ["1001Fonts", "DaFont", "FreeFonts.io"])) := by
  refine ⟨?_, ?_, ?_, ?_⟩
  · intro u h1; subst h1; rfl
  · intro u h1 h2; subst h1; subst h2; rfl
  · intro u h1 h2 h3; subst h1; subst h2; subst h3; rfl
  · intro h1 h2 h3; subst h1; subst h2; subst h3; rfl

/-- Witness for C5: a chain whose first provider succeeds returns that
reference with the 1001Fonts label and consults only 1001Fonts. -/
theorem C5_witness :
    search_alternative_font_providers (some "u1") none none
      = (some ("u1", "1001Fonts"), ["1001Fonts"]) :=
  (C5_provider_chain_order (some "u1") none none).1 "u1" rfl

/-- Counterexample to claim C4: after the first replacement key also fails
with an authentication error, the source is not abandoned — a second
replacement key triggers a further retry that succeeds and returns a
non-empty index, where the claim predicts the empty index. -/
theorem C4_counterexample :
    get_google_fonts_index
        [FetchResult.authError, FetchResult.authError,
         FetchResult.ok [("Roboto", ["regular"])]]
        [some "key1", some "key2"]
      = [("Roboto", ["regular"])] ∧
    ([("Roboto", ["regular"])] : List (String × List String)) ≠ [] := by
  exact ⟨rfl, by decide⟩

/-- Claim C4 (amended): on an authentication error the whole index fetch is
retried once per replacement key the caller supplies, with no bound on the
number of retries; the indexed source is abandoned (empty index) exactly when
the caller declines to supply a key or a non-authentication error occurs. -/
theorem C4_auth_retry_unbounded (rs : List FetchResult) (ks : List (Option String))
    (k : String) :
    get_google_fonts_index (FetchResult.authError :: rs) (some k :: ks)
        = get_google_fonts_index rs ks ∧
    get_google_fonts_index (FetchResult.authError :: rs) (none :: ks) = [] ∧
    get_google_fonts_index (FetchResult.otherError :: rs) ks = [] :=
  ⟨rfl, rfl, rfl⟩

/-- Counterexample to claim C1: a payload that fails archive extraction and
matches neither font signature is nevertheless staged by
`download_google_font` under the default `.ttf` extension, and the download is
reported successful. -/
theorem C1_counterexample :
    List.isPrefixOf ottoSig (ofString "JUNK") = false ∧
    List.isPrefixOf ttfSig (ofString "JUNK") = false ∧
    download_google_font "Foo" (Payload.raw (ofString "JUNK"))
      = ⟨true, ["Foo.ttf"]⟩ := by
  exact ⟨rfl, rfl, by decide⟩

/-- Claim C1 (amended): for a payload failing archive extraction whose first
bytes match neither `OTTO` nor `00 01 00 00`, the alternative-source download
fails with nothing staged, but `download_google_font` stages the payload under
the default `.ttf` extension and reports success. -/
theorem C1_raw_payload_classification (name : String) (bytes : List Nat)
    (h1 : List.isPrefixOf ottoSig bytes = false)
    (h2 : List.isPrefixOf ttfSig bytes = false) :
    download_font_from_alternative_source name (Payload.raw bytes) = ⟨false, []⟩ ∧
    download_google_font name (Payload.raw bytes) = ⟨true, [name ++ ".ttf"]⟩ := by
  constructor
  · simp [download_font_from_alternative_source, h1, h2]
  · simp [download_google_font, h1, h2]

/-- Witness for C1 (amended): the concrete unrecognized payload `JUNK`. -/
theorem C1_witness :
    download_font_from_alternative_source "Foo" (Payload.raw (ofString "JUNK"))
        = ⟨false, []⟩ ∧
    download_google_font "Foo" (Payload.raw (ofString "JUNK"))
        = ⟨true, ["Foo.ttf"]⟩ :=
  C1_raw_payload_classification "Foo" (ofString "JUNK") (by decide) (by decide)

/-- Counterexample to claim C2: `normalize_font_name` is not idempotent.
Stripping non-alphanumerics can fuse fragments into a removable token:
`normalize("bo-ld") = "bold"` but `normalize("bold") = ""`. -/
theorem C2_idempotence_counterexample :
    normalize_font_name (normalize_font_name (ofString "bo-ld"))
      ≠ normalize_font_name (ofString "bo-ld") := by decide

/-- Claim C2 (amended): `normalize_font_name` is neither idempotent nor
case-insensitive on all inputs. Idempotence fails because deleting separators
can fuse fragments into a removable token (`normalize("bo-ld") = "bold"` but
`normalize("bold") = ""`); case-insensitivity fails on non-ASCII input
because the Unicode uppercase mapping can expand (`normalize("ß") = ""` but
`normalize("ß".upper()) = normalize("SS") = "ss"`). Restricted to ASCII
inputs, `normalize(x) = normalize(x.upper())` does hold. -/
theorem C2_normalize_case_insensitive_not_idempotent :
    (∀ x : List Nat, (∀ n ∈ x, n ≤ 127) →
      normalize_font_name (pyUpperStr x) = normalize_font_name x) ∧
    normalize_font_name (normalize_font_name (ofString "bo-ld"))
      ≠ normalize_font_name (ofString "bo-ld") ∧
    normalize_font_name (pyUpperStr (ofString "ß"))
      ≠ normalize_font_name (ofString "ß") := by
  refine ⟨?_, by decide, by decide⟩
  intro x h
  unfold normalize_font_name
  rw [pyLowerStr_pyUpperStr_ascii x h]

/-- Witness for C2 (amended): the ASCII input `"bo-ld"` satisfies the ASCII
side condition and normalizes equally to its uppercase `"BO-LD"`. -/
theorem C2_witness :
    (∀ n ∈ ofString "bo-ld", n ≤ 127) ∧
    normalize_font_name (pyUpperStr (ofString "bo-ld"))
      = normalize_font_name (ofString "bo-ld") :=
  ⟨by decide,
   C2_normalize_case_insensitive_not_idempotent.1 (ofString "bo-ld") (by decide)⟩

/-- Counterexample to claim C3: `"Arial"` and `"Arial Bold"` are distinct raw
names with the same normalized key `"arial"`, and the inventory map built from
them (in that order) stores the later name, not the first-seen one. -/
theorem C3_counterexample :
    normalize_font_name (ofString "Arial Bold") = normalize_font_name (ofString "Arial") ∧
    ofString "Arial Bold" ≠ ofString "Arial" ∧
    alookup (normalize_font_name (ofString "Arial"))
        (buildNormalizedMap [ofString "Arial", ofString "Arial Bold"])
      = some (ofString "Arial Bold") := by decide

/-- Claim C3 (amended): when distinct raw names collapse to the same
normalized key, the inventory keeps the mapping for the last-seen raw name —
a later colliding name always replaces the stored mapping. -/
theorem C3_last_seen_wins (fonts : List (List Nat)) (font k : List Nat)
    (h1 : normalize_font_name font = k) (h2 : k ≠ []) :
    alookup k (buildNormalizedMap (fonts ++ [font])) = some font := by
  unfold buildNormalizedMap
  rw [List.foldl_append]
  simp only [List.foldl_cons, List.foldl_nil, h1, if_pos h2]
  exact alookup_dinsert_self k font _

/-- Witness for C3 (amended): appending the colliding name `"Arial Bold"`
after `"Arial"` makes the map return `"Arial Bold"` for the key `"arial"`. -/
theorem C3_witness :
    alookup (ofString "arial")
        (buildNormalizedMap [ofString "Arial", ofString "Arial Bold"])
      = some (ofString "Arial Bold") :=
  C3_last_seen_wins [ofString "Arial"] (ofString "Arial Bold") (ofString "arial")
    (by decide) (by decide)

theorem is_font_installed_triple (fontName style : List Nat)
    (systemFonts : List (List Nat)) (lowercaseMap normalizedMap : List (List Nat × List Nat))
    (installedStyles : Option (List (List Nat × List (List Nat)))) :
    (is_font_installed fontName style systemFonts lowercaseMap normalizedMap installedStyles).found
        = (findFontMatch fontName systemFonts lowercaseMap normalizedMap).1 ∧
    (is_font_installed fontName style systemFonts lowercaseMap normalizedMap installedStyles).matchType
        = (findFontMatch fontName systemFonts lowercaseMap normalizedMap).2.1 ∧
    (is_font_installed fontName style systemFonts lowercaseMap normalizedMap installedStyles).matchedName
        = (findFontMatch fontName systemFonts lowercaseMap normalizedMap).2.2 := by
  cases installedStyles with
  | none => exact ⟨rfl, rfl, rfl⟩
  | some styleMap =>
    by_cases h : (findFontMatch fontName systemFonts lowercaseMap normalizedMap).1
    · simp [is_font_installed, h]
    · simp [is_font_installed, h]

/-- Claim C6: the three matching strategies are tried in the order exact,
case-insensitive, normalized, first success winning; in particular an exact
raw-string match always reports `"exact match"`, even when a case-insensitive
or normalized match also exists. -/
theorem C6_match_precedence (fontName style : List Nat)
    (systemFonts : List (List Nat)) (lowercaseMap normalizedMap : List (List Nat × List Nat))
    (installedStyles : Option (List (List Nat × List (List Nat)))) :
    (fontName ∈ systemFonts →
      (is_font_installed fontName style systemFonts lowercaseMap normalizedMap installedStyles).found = true ∧
      (is_font_installed fontName style systemFonts lowercaseMap normalizedMap installedStyles).matchType = "exact match" ∧
      (is_font_installed fontName style systemFonts lowercaseMap normalizedMap installedStyles).matchedName = fontName) ∧
    (fontName ∉ systemFonts → ∀ m, alookup (pyLowerStr fontName) lowercaseMap = some m →
      (is_font_installed fontName style systemFonts lowercaseMap normalizedMap installedStyles).found = true ∧
      (is_font_installed fontName style systemFonts lowercaseMap normalizedMap installedStyles).matchType = "case-insensitive match" ∧
      (is_font_installed fontName style systemFonts lowercaseMap normalizedMap installedStyles).matchedName = m) ∧
    (fontName ∉ systemFonts → alookup (pyLowerStr fontName) lowercaseMap = none →
      ∀ m, alookup (normalize_font_name fontName) normalizedMap = some m →
      (is_font_installed fontName style systemFonts lowercaseMap normalizedMap installedStyles).found = true ∧
      (is_font_installed fontName style systemFonts lowercaseMap normalizedMap installedStyles).matchType = "normalized match" ∧
      (is_font_installed fontName style systemFonts lowercaseMap normalizedMap installedStyles).matchedName = m) := by
  obtain ⟨hf, ht, hn⟩ := is_font_installed_triple fontName style systemFonts
    lowercaseMap normalizedMap installedStyles
  refine ⟨?_, ?_, ?_⟩
  · intro hmem
    rw [hf, ht, hn]
    unfold findFontMatch
    rw [if_pos hmem]
    exact ⟨rfl, rfl, rfl⟩
  · intro hmem m hlook
    rw [hf, ht, hn]
    unfold findFontMatch
    rw [if_neg hmem, hlook]
    exact ⟨rfl, rfl, rfl⟩
  · intro hmem hlook1 m hlook2
    rw [hf, ht, hn]
    unfold findFontMatch
    rw [if_neg hmem, hlook1, hlook2]
    exact ⟨rfl, rfl, rfl⟩

/-- Witness for C6: `"Inter"` is exactly installed while a case-insensitive
and a normalized entry also exist; the result still reports an exact match. -/
theorem C6_witness :
    ofString "Inter" ∈ [ofString "Inter"] ∧
    ((is_font_installed (ofString "Inter") (ofString "Regular") [ofString "Inter"]
        [(ofString "inter", ofString "Inter")] [(ofString "inter", ofString "Inter")]
        none).found = true ∧
     (is_font_installed (ofString "Inter") (ofString "Regular") [ofString "Inter"]
        [(ofString "inter", ofString "Inter")] [(ofString "inter", ofString "Inter")]
        none).matchType = "exact match" ∧
     (is_font_installed (ofString "Inter") (ofString "Regular") [ofString "Inter"]
        [(ofString "inter", ofString "Inter")] [(ofString "inter", ofString "Inter")]
        none).matchedName = ofString "Inter") :=
  ⟨by decide,
   (C6_match_precedence (ofString "Inter") (ofString "Regular") [ofString "Inter"]
      [(ofString "inter", ofString "Inter")] [(ofString "inter", ofString "Inter")]
      none).1 (by decide)⟩

/-- Claim C7: with a style map supplied and the family matched, the style
flag is true exactly when the requested style is in the matched font's style
set or that set contains `"Regular"`. -/
theorem C7_style_satisfaction (fontName style : List Nat)
    (systemFonts : List (List Nat)) (lowercaseMap normalizedMap : List (List Nat × List Nat))
    (styleMap : List (List Nat × List (List Nat)))
    (hfound : (is_font_installed fontName style systemFonts lowercaseMap normalizedMap
      (some styleMap)).found = true) :
    ((is_font_installed fontName style systemFonts lowercaseMap normalizedMap
        (some styleMap)).styleSatisfied = true ↔
      (style ∈ (alookup (is_font_installed fontName style systemFonts lowercaseMap
          normalizedMap (some styleMap)).matchedName styleMap).getD [] ∨
       ofString "Regular" ∈ (alookup (is_font_installed fontName style systemFonts
          lowercaseMap normalizedMap (some styleMap)).matchedName styleMap).getD [])) := by
  have h1 : (is_font_installed fontName style systemFonts lowercaseMap normalizedMap
      (some styleMap)).found
      = (findFontMatch fontName systemFonts lowercaseMap normalizedMap).1 :=
    (is_font_installed_triple fontName style systemFonts lowercaseMap normalizedMap
      (some styleMap)).1
  rw [h1] at hfound
  simp [is_font_installed, hfound, decide_eq_true_eq]

/-- Witness for C7: `"Inter"` has only `"Regular"` installed, so the request
for `"Bold"` is satisfied through the `"Regular"` superset rule. -/
theorem C7_witness :
    (is_font_installed (ofString "Inter") (ofString "Bold") [ofString "Inter"] [] []
        (some [(ofString "Inter", [ofString "Regular"])])).found = true ∧
    ((is_font_installed (ofString "Inter") (ofString "Bold") [ofString "Inter"] [] []
        (some [(ofString "Inter", [ofString "Regular"])])).styleSatisfied = true ↔
      (ofString "Bold" ∈ (alookup (is_font_installed (ofString "Inter") (ofString "Bold")
          [ofString "Inter"] [] [] (some [(ofString "Inter", [ofString "Regular"])])).matchedName
          [(ofString "Inter", [ofString "Regular"])]).getD [] ∨
       ofString "Regular" ∈ (alookup (is_font_installed (ofString "Inter") (ofString "Bold")
          [ofString "Inter"] [] [] (some [(ofString "Inter", [ofString "Regular"])])).matchedName
          [(ofString "Inter", [ofString "Regular"])]).getD [])) :=
  ⟨by decide,
   C7_style_satisfaction (ofString "Inter") (ofString "Bold") [ofString "Inter"] [] []
     [(ofString "Inter", [ofString "Regular"])] (by decide)⟩

/-- Claim C8: one installer step on a staged font — skip with untouched
destination and bumped skip counter when the file exists and the font is
neither variable nor replaceable; overwrite with bumped replace counter when
the file exists and the font is variable or replacement was requested;
install with bumped installed counter when no file exists. -/
theorem C8_install_policy (replaceExisting : Bool) (st : InstallState) (font : StagedFont) :
    ((alookup font.name st.dest).isSome = true → font.isVariable = false →
      replaceExisting = false →
      installStep replaceExisting st font = { st with skipped := st.skipped + 1 }) ∧
    ((alookup font.name st.dest).isSome = true →
      (font.isVariable = true ∨ replaceExisting = true) →
      alookup font.name (installStep replaceExisting st font).dest = some font.content ∧
      (installStep replaceExisting st font).replaced = st.replaced + 1 ∧
      (installStep replaceExisting st font).installed = st.installed ∧
      (installStep replaceExisting st font).skipped = st.skipped) ∧
    (alookup font.name st.dest = none →
      alookup font.name (installStep replaceExisting st font).dest = some font.content ∧
      (installStep replaceExisting st font).installed = st.installed + 1 ∧
      (installStep replaceExisting st font).replaced = st.replaced ∧
      (installStep replaceExisting st font).skipped = st.skipped) := by
  refine ⟨?_, ?_, ?_⟩
  · intro hsome hvar hrep
    obtain ⟨v, h⟩ := Option.isSome_iff_exists.mp hsome
    simp [installStep, h, hvar, hrep]
  · intro hsome hor
    obtain ⟨v, h⟩ := Option.isSome_iff_exists.mp hsome
    have hcond : (replaceExisting || font.isVariable) = true := by
      rcases hor with h1 | h1 <;> simp [h1]
    have hstep : installStep replaceExisting st font
        = { st with dest := dinsert font.name font.content st.dest,
                    replaced := st.replaced + 1,
                    variableCount := st.variableCount + if font.isVariable then 1 else 0 } := by
      simp [installStep, h, hcond]
    rw [hstep]
    exact ⟨alookup_dinsert_self _ _ _, rfl, rfl, rfl⟩
  · intro hnone
    have hstep : installStep replaceExisting st font
        = { st with dest := dinsert font.name font.content st.dest,
                    installed := st.installed + 1,
                    variableCount := st.variableCount + if font.isVariable then 1 else 0 } := by
      simp [installStep, hnone]
    rw [hstep]
    exact ⟨alookup_dinsert_self _ _ _, rfl, rfl, rfl⟩

/-- Witness for C8: an existing non-variable file with replacement off is
skipped, leaving the destination untouched and bumping only the skip count. -/
theorem C8_witness :
    (alookup "a.ttf" [("a.ttf", [1])]).isSome = true ∧
    installStep false ⟨[("a.ttf", [1])], 0, 0, 0, 0⟩ ⟨"a.ttf", [2], false⟩
      = ⟨[("a.ttf", [1])], 0, 0, 1, 0⟩ :=
  ⟨by decide,
   (C8_install_policy false ⟨[("a.ttf", [1])], 0, 0, 0, 0⟩ ⟨"a.ttf", [2], false⟩).1
     (by decide) rfl rfl⟩

/-- Claim C9: the extractor pairs the i-th extracted family occurrence with
the i-th extracted style occurrence by positional index; families beyond the
style count default to `"Regular"` (both components stripped). -/
theorem C9_positional_pairing (fs ss : List (List Nat)) (i : Nat) (h : i < fs.length) :
    (parse_fonts_from_setting fs ss).getD i ([], []) =
      (stripWS (fs.getD i []),
       if i < ss.length then stripWS (ss.getD i []) else ofString "Regular") := by
  induction fs generalizing ss i with
  | nil => exact absurd h (Nat.not_lt_zero i)
  | cons f fs ih =>
    cases ss with
    | nil =>
      cases i with
      | zero =>
        simp only [parse_fonts_from_setting, List.getD_cons_zero, List.length_nil,
          Nat.not_lt_zero, if_false]
        rw [show stripWS (ofString "Regular") = ofString "Regular" from by decide]
      | succ j =>
        have hj : j < fs.length := Nat.lt_of_succ_lt_succ h
        simp only [parse_fonts_from_setting, List.getD_cons_succ]
        rw [ih [] j hj]
        simp
    | cons s ss =>
      cases i with
      | zero =>
        simp [parse_fonts_from_setting]
      | succ j =>
        have hj : j < fs.length := Nat.lt_of_succ_lt_succ h
        simp only [parse_fonts_from_setting, List.getD_cons_succ, List.length_cons]
        rw [ih ss j hj]
        congr 1
        exact if_congr (by omega) rfl rfl

/-- Witness for C9: one family and no styles pairs the family with
`"Regular"`. -/
theorem C9_witness :
    0 < 1 ∧
    (parse_fonts_from_setting [ofString " Inter "] []).getD 0 ([], [])
      = (ofString "Inter", ofString "Regular") :=
  ⟨by decide, C9_positional_pairing [ofString " Inter "] [] 0 (by decide)⟩

end FontScanner
